import Mathlib

/-!
Verification of the event-sourcing storage engine.

The repository's core write path (`PgStore::persist`, `by_aggregate_id`,
`delete`, `AggregateManager`) is specified in spec.md §4; the builder
(`PgStoreBuilder`) is in `src/esrs/postgres/builder.rs`, and the example
aggregates, handlers and policies are in `examples/`.  Pure functions are
embedded as Lean functions; the storage state is passed explicitly as a
`Db` value; fallible steps return `Except`.
-/

set_option maxHeartbeats 1000000

/-- Event envelope from spec §3 `StoreEvent`: identity, owning aggregate id,
payload, timestamp, per-aggregate sequence number.  UUIDs and timestamps are
modelled as `Nat`. -/
structure StoreEvent (Ev : Type) where
  id : Nat
  aggregate_id : Nat
  payload : Ev
  occurred_at : Nat
  sequence_number : Nat
deriving Repr, DecidableEq

/-- AggregateState from spec §3: aggregate identity, position of the last
folded event (0 before any event), and the folded in-memory state. -/
structure AggregateState (S : Type) where
  id : Nat
  sequence_number : Nat
  inner : S
deriving Repr, DecidableEq

/-- Modelled from the spec: `AggregateState::next_sequence_number` (used by
`examples/store_crud/main.rs` but defined outside `src/`): the sequence
number the next persisted event will receive, one past the last folded. -/
def AggregateState.next_sequence_number (st : AggregateState S) : Nat :=
  st.sequence_number + 1

/-- Modelled from the spec: the storage boundary of §6 — the committed rows
of the per-aggregate event table, an auxiliary transactional side-effect
state (read-model rows written by transactional handlers), and the fresh-id
generator position for event ids. -/
structure Db (Ev Side : Type) where
  rows : List (StoreEvent Ev)
  side : Side
  nextId : Nat
deriving Repr

/-- Modelled from the spec: the three reactive registries of §3 held by the
store.  A transactional handler receives the event and the open
transactional resource (here: the side state) and may veto; a post-commit
handler receives the event only; an event bus receives the whole committed
batch. -/
structure StoreConfig (Ev Side : Type) where
  txHandlers : List (StoreEvent Ev → Side → Except String Side)
  eventHandlers : List (StoreEvent Ev → Except String Unit)
  eventBuses : List (List (StoreEvent Ev) → Except String Unit)

/-- Modelled from the spec: step 2 of the §4.2 write protocol — for each
event in order, assign `sequence_number = state.sequence_number + 1 +
offset`, generate a fresh event id (consecutive generator positions), stamp
the current time. -/
def mkBatch (aggId baseSeq baseId now : Nat) : List Ev → List (StoreEvent Ev)
  | [] => []
  | e :: rest =>
    ⟨baseId, aggId, e, now, baseSeq + 1⟩ :: mkBatch aggId (baseSeq + 1) (baseId + 1) now rest

/-- Whether a committed row with the key `(aggId, seq)` of the
`(aggregate_id, sequence_number)` uniqueness constraint already exists. -/
def hasKey (rows : List (StoreEvent Ev)) (aggId seq : Nat) : Bool :=
  rows.any fun r => r.aggregate_id == aggId && r.sequence_number == seq

/-- Modelled from the spec: the in-transaction inserts of §4.2 steps 2–3 —
each row is inserted under the `(aggregate_id, sequence_number)` uniqueness
constraint; a violation aborts (`none`). -/
def insertAll (rows : List (StoreEvent Ev)) : List (StoreEvent Ev) → Option (List (StoreEvent Ev))
  | [] => some rows
  | e :: rest =>
    if hasKey rows e.aggregate_id e.sequence_number then none
    else insertAll (rows ++ [e]) rest

/-- Modelled from the spec: §4.2 step 4 — invoke every registered
transactional handler, in registration order, passing the event and the
open transactional resource; the first error aborts. -/
def runTxHandlers (hs : List (StoreEvent Ev → Side → Except String Side))
    (e : StoreEvent Ev) (s : Side) : Except String Side :=
  match hs with
  | [] => .ok s
  | h :: rest =>
    match h e s with
    | .error msg => .error msg
    | .ok s' => runTxHandlers rest e s'

/-- Run the transactional handlers for each event of the batch in order. -/
def runTxAll (hs : List (StoreEvent Ev → Side → Except String Side))
    (batch : List (StoreEvent Ev)) (s : Side) : Except String Side :=
  match batch with
  | [] => .ok s
  | e :: rest =>
    match runTxHandlers hs e s with
    | .error msg => .error msg
    | .ok s' => runTxAll hs rest s'

/-- Modelled from the spec: §4.2 step 6 — post-commit handlers run per event
in registration order; errors are collected and reported, never propagated
to a rollback. -/
def runPostHandlers (hs : List (StoreEvent Ev → Except String Unit))
    (e : StoreEvent Ev) : List String :=
  hs.filterMap fun h =>
    match h e with
    | .error msg => some msg
    | .ok _ => none

/-- Collected post-commit handler errors over the whole batch. -/
def runPostAll (hs : List (StoreEvent Ev → Except String Unit))
    (batch : List (StoreEvent Ev)) : List String :=
  (batch.map (runPostHandlers hs)).flatten

/-- Modelled from the spec: §4.2 step 7 — each event bus receives the full
batch of newly committed events; failures are collected. -/
def runBuses (bs : List (List (StoreEvent Ev) → Except String Unit))
    (batch : List (StoreEvent Ev)) : List String :=
  bs.filterMap fun b =>
    match b batch with
    | .error msg => some msg
    | .ok _ => none

/-- Outcome of one `persist` call: a `Conflict` (§7), a transactional
handler veto (`HandlerRejected`, §7), or a commit together with the
persisted batch and the reported (not propagated) post-commit errors. -/
inductive PersistOutcome (Ev : Type) where
  | conflict
  | handlerRejected (msg : String)
  | committed (batch : List (StoreEvent Ev)) (postErrors : List String)
deriving Repr, DecidableEq

/-- Modelled from the spec: `EventStore::persist`, the §4.2 transactional
write protocol (the store implementation is outside `src/`; only its
builder and callers are present).  Steps: build the batch with assigned
sequence numbers, fresh ids and the current timestamp; insert every row
under the uniqueness constraint, aborting with `conflict` on a violation;
run every transactional handler, aborting with `handlerRejected` on the
first error; commit (rows and handler side effects become visible
atomically); then run post-commit handlers and event buses, collecting
their errors without undoing the commit. -/
def persist (cfg : StoreConfig Ev Side) (db : Db Ev Side) (st : AggregateState S)
    (newEvents : List Ev) (now : Nat) : Db Ev Side × PersistOutcome Ev :=
  let batch := mkBatch st.id st.sequence_number db.nextId now newEvents
  match insertAll db.rows batch with
  | none => (db, .conflict)
  | some rows' =>
    match runTxAll cfg.txHandlers batch db.side with
    | .error msg => (db, .handlerRejected msg)
    | .ok side' =>
      let db' : Db Ev Side := ⟨rows', side', db.nextId + newEvents.length⟩
      (db', .committed batch (runPostAll cfg.eventHandlers batch ++ runBuses cfg.eventBuses batch))

/-- Modelled from the spec: `EventStore::by_aggregate_id` (§4.1) — all
events for the id in ascending `sequence_number` order; the empty list, not
an error, when the aggregate has no history. -/
def by_aggregate_id (db : Db Ev Side) (aggId : Nat) : List (StoreEvent Ev) :=
  (db.rows.filter fun r => r.aggregate_id == aggId).insertionSort
    fun a b => a.sequence_number ≤ b.sequence_number

/-- Modelled from the spec: `EventStore::delete` (§4.1) — removes all events
for the id. -/
def EventStore.delete (db : Db Ev Side) (aggId : Nat) : Db Ev Side :=
  { db with rows := db.rows.filter fun r => r.aggregate_id != aggId }

/-- Modelled from the spec: the fold step of §4.3 — one returned
`StoreEvent` payload is folded into the state, advancing `sequence_number`
to match the persisted event. -/
def applyStoreEvent (apply : S → Ev → S) (st : AggregateState S)
    (e : StoreEvent Ev) : AggregateState S :=
  ⟨st.id, e.sequence_number, apply st.inner e.payload⟩

/-- Modelled from the spec: the caller folds the persisted batch into the
state (§4.2 step 8, §4.3). -/
def foldBatch (apply : S → Ev → S) (st : AggregateState S)
    (batch : List (StoreEvent Ev)) : AggregateState S :=
  batch.foldl (applyStoreEvent apply) st

/-- Well-formedness of the store (§5): no two committed events share an
`(aggregate_id, sequence_number)` pair. -/
def Db.Wf (db : Db Ev Side) : Prop :=
  db.rows.Pairwise fun a b =>
    ¬(a.aggregate_id = b.aggregate_id ∧ a.sequence_number = b.sequence_number)

/-- The states of the store reachable from an empty log by `persist` and
`delete` calls. -/
inductive Reachable (cfg : StoreConfig Ev Side) : Db Ev Side → Prop where
  | empty (side : Side) : Reachable cfg ⟨[], side, 0⟩
  | persistStep {db : Db Ev Side} (st : AggregateState S) (evs : List Ev) (now : Nat) :
      Reachable cfg db → Reachable cfg (persist cfg db st evs now).1
  | deleteStep {db : Db Ev Side} (aggId : Nat) :
      Reachable cfg db → Reachable cfg (EventStore.delete db aggId)

/-! ## PgStoreBuilder, from `src/esrs/postgres/builder.rs` -/

/-- `Statements::new::<A>()`: the SQL text, opaque here except for being
derived from the aggregate's name (spec §1 puts concrete SQL out of
scope). -/
structure Statements where
  aggregateName : String
deriving Repr, DecidableEq

/-- `Statements::new::<A>()`. -/
def Statements.new (aggregateName : String) : Statements :=
  ⟨aggregateName⟩

/-- `PgStoreBuilder<A>` from `builder.rs` lines 14–24: pool, statements, the
three registries, and the `run_migrations` flag.  The pool and the three
handler element types are opaque parameters. -/
structure PgStoreBuilder (P H T B : Type) where
  pool : P
  statements : Statements
  event_handlers : List H
  transactional_event_handlers : List T
  event_buses : List B
  run_migrations : Bool

/-- `PgStoreBuilder::new` (`builder.rs` lines 31–40): empty registries,
`run_migrations = true`. -/
def PgStoreBuilder.new (pool : P) (aggregateName : String) : PgStoreBuilder P H T B :=
  ⟨pool, Statements.new aggregateName, [], [], [], true⟩

/-- `PgStoreBuilder::with_event_handlers` (`builder.rs` lines 43–46). -/
def PgStoreBuilder.with_event_handlers (b : PgStoreBuilder P H T B) (hs : List H) :
    PgStoreBuilder P H T B :=
  { b with event_handlers := hs }

/-- `PgStoreBuilder::add_event_handler` (`builder.rs` lines 49–52). -/
def PgStoreBuilder.add_event_handler (b : PgStoreBuilder P H T B) (h : H) :
    PgStoreBuilder P H T B :=
  { b with event_handlers := b.event_handlers ++ [h] }

/-- `PgStoreBuilder::with_transactional_event_handlers` (`builder.rs` lines
55–61). -/
def PgStoreBuilder.with_transactional_event_handlers (b : PgStoreBuilder P H T B)
    (ts : List T) : PgStoreBuilder P H T B :=
  { b with transactional_event_handlers := ts }

/-- `PgStoreBuilder::add_transactional_event_handler` (`builder.rs` lines
64–71). -/
def PgStoreBuilder.add_transactional_event_handler (b : PgStoreBuilder P H T B)
    (t : T) : PgStoreBuilder P H T B :=
  { b with transactional_event_handlers := b.transactional_event_handlers ++ [t] }

/-- `PgStoreBuilder::with_event_buses` (`builder.rs` lines 74–77). -/
def PgStoreBuilder.with_event_buses (b : PgStoreBuilder P H T B) (bs : List B) :
    PgStoreBuilder P H T B :=
  { b with event_buses := bs }

/-- `PgStoreBuilder::add_event_bus` (`builder.rs` lines 80–83). -/
def PgStoreBuilder.add_event_bus (b : PgStoreBuilder P H T B) (bus : B) :
    PgStoreBuilder P H T B :=
  { b with event_buses := b.event_buses ++ [bus] }

/-- `PgStoreBuilder::without_running_migrations` (`builder.rs` lines
87–90). -/
def PgStoreBuilder.without_running_migrations (b : PgStoreBuilder P H T B) :
    PgStoreBuilder P H T B :=
  { b with run_migrations := false }

/-- `ArcSwap<T>`: an atomically replaceable pointer; `store` installs a whole
new value (replace-the-pointer, never in-place mutation). -/
structure ArcSwap (α : Type) where
  current : α
deriving Repr, DecidableEq

/-- `ArcSwap::store`: replace the held value wholesale. -/
def ArcSwap.store (_ : ArcSwap α) (x : α) : ArcSwap α :=
  ⟨x⟩

/-- `InnerPgStore` as constructed by `try_build` (`builder.rs` lines
105–113): the post-commit event handler registry sits in an `ArcSwap`; the
transactional handler and event bus registries are plain fields, shared
immutably behind the store's `Arc`. -/
structure InnerPgStore (H T B : Type) where
  statements : Statements
  event_handlers : ArcSwap (List H)
  transactional_event_handlers : List T
  event_buses : List B

/-- Whether a registry field kind admits replacement after the store is
built: an `ArcSwap` field does, a plain field behind the store's `Arc` does
not. -/
inductive CellKind where
  | arcSwap
  | plain
deriving Repr, DecidableEq

/-- A registry field kind admits hot swapping exactly when it is an
`ArcSwap`. -/
def CellKind.hotSwappable : CellKind → Bool
  | .arcSwap => true
  | .plain => false

/-- The field kinds of the three registries of `InnerPgStore`, read off
`builder.rs` lines 109–111: `event_handlers` is wrapped in
`ArcSwap::from_pointee`, `transactional_event_handlers` and `event_buses`
are moved in as plain vectors. -/
structure RegistryLayout where
  event_handlers : CellKind
  transactional_event_handlers : CellKind
  event_buses : CellKind
deriving Repr, DecidableEq

/-- The registry layout of the built store (`builder.rs` lines 109–111). -/
def innerPgStoreLayout : RegistryLayout :=
  ⟨.arcSwap, .plain, .plain⟩

/-- `PgStoreBuilder::try_build` (`builder.rs` lines 100–114): run the
migrations exactly when `run_migrations` is set, propagating their error;
otherwise construct the store.  The outcome of `Migrations::run` (outside
`src/`) is the `migResult` parameter. -/
def PgStoreBuilder.try_build (b : PgStoreBuilder P H T B)
    (migResult : Except String Unit) : Except String (InnerPgStore H T B) :=
  if b.run_migrations then
    match migResult with
    | .error e => .error e
    | .ok _ =>
      .ok ⟨b.statements, ⟨b.event_handlers⟩, b.transactional_event_handlers, b.event_buses⟩
  else
    .ok ⟨b.statements, ⟨b.event_handlers⟩, b.transactional_event_handlers, b.event_buses⟩

/-! ## Example aggregates -/

/-- Substring test on character lists, used to embed Rust's
`str::contains`. -/
def listContainsSub (pat : List Char) : List Char → Bool
  | [] => pat.isEmpty
  | c :: rest => pat.isPrefixOf (c :: rest) || listContainsSub pat rest

/-- Rust's `msg.contains(pat)`: `pat` occurs as a contiguous substring of
`s`. -/
def strContains (s pat : String) : Bool :=
  listContainsSub pat.toList s.toList

namespace SimpleSideEffect

/-- `LoggingEvent` from `examples/simple_side_effect/src/lib.rs`. -/
inductive LoggingEvent where
  | Logged (msg : String)
deriving Repr, DecidableEq

/-- `LoggingCommand` from `examples/simple_side_effect/src/lib.rs`. -/
inductive LoggingCommand where
  | Log (msg : String)
deriving Repr, DecidableEq

/-- `LoggingAggregate::handle_command` (`simple_side_effect` lines 18–22). -/
def handle_command (_state : Nat) : LoggingCommand → Except String (List LoggingEvent)
  | .Log msg => .ok [.Logged msg]

/-- `LoggingAggregate::apply_event` (`simple_side_effect` lines 24–28): the
state counts the applied events. -/
def apply_event (state : Nat) (_ : LoggingEvent) : Nat :=
  state + 1

/-- `LoggingTransactionalEventHandler::handle` (`simple_side_effect` lines
39–50): vetoes the write when the message contains `fail_projection`,
otherwise succeeds (the log line is a no-op here). -/
def LoggingTransactionalEventHandler.handle (e : StoreEvent LoggingEvent)
    (s : Side) : Except String Side :=
  match e.payload with
  | .Logged msg =>
    if strContains msg "fail_projection" then .error msg else .ok s

/-- `LoggingEventHandler::handle` (`simple_side_effect` lines 65–76): a
post-commit handler that never fails (it returns early on `fail_policy`
messages and logs otherwise). -/
def LoggingEventHandler.handle (_ : StoreEvent LoggingEvent) : Except String Unit :=
  .ok ()

end SimpleSideEffect

namespace SimpleSaga

/-- `LoggingEvent` from `examples/simple_saga/src/lib.rs`. -/
inductive LoggingEvent where
  | Received (msg : String)
  | Succeeded
  | Failed
deriving Repr, DecidableEq

/-- `LoggingCommand` from `examples/simple_saga/src/lib.rs`. -/
inductive LoggingCommand where
  | TryLog (msg : String)
  | Succeed
  | Fail
deriving Repr, DecidableEq

/-- `LoggingAggregate::handle_command` (`simple_saga` lines 35–41). -/
def handle_command (_state : Nat) : LoggingCommand → Except String (List LoggingEvent)
  | .TryLog msg => .ok [.Received msg]
  | .Succeed => .ok [.Succeeded]
  | .Fail => .ok [.Failed]

/-- `LoggingAggregate::apply_event` (`simple_saga` lines 43–62): every event
advances the counter state by one. -/
def apply_event (state : Nat) (_ : LoggingEvent) : Nat :=
  state + 1

/-- The store configuration of the saga example: no transactional handlers,
no buses; the policy is dispatched post-commit by `sagaHandleCommand`
below. -/
def sagaCfg : StoreConfig LoggingEvent Unit :=
  ⟨[], [], []⟩

/-- Modelled from the spec: `AggregateManager::load` (§4.3, outside `src/`)
— reconstruct the state by folding the aggregate's history in ascending
sequence order, starting from a fresh state (`AggregateState::new`: sequence
0, default inner state). -/
def load (db : Db LoggingEvent Unit) (aggId : Nat) : AggregateState Nat :=
  foldBatch apply_event ⟨aggId, 0, 0⟩ (by_aggregate_id db aggId)

/-- Modelled from the spec: `AggregateManager::handle_command` (§4.3,
outside `src/`) — decide with the pure aggregate, persist the produced
events, and hand back the persisted batch; on any pre-commit failure the
store is unchanged. -/
def managerHandleCommand (db : Db LoggingEvent Unit) (st : AggregateState Nat)
    (cmd : LoggingCommand) (now : Nat) :
    Db LoggingEvent Unit × Except String (List (StoreEvent LoggingEvent)) :=
  match handle_command st.inner cmd with
  | .error e => (db, .error e)
  | .ok evs =>
    match persist sagaCfg db st evs now with
    | (db', .committed batch _) => (db', .ok batch)
    | (db', .conflict) => (db', .error "conflict")
    | (db', .handlerRejected msg) => (db', .error msg)

/-- `LoggingPolicy::handle_event` (`simple_saga` lines 92–115): load the
aggregate by replay; on a `Received` message containing `fail_policy`,
issue a `Fail` command through the shared store and report the error; on
any other `Received` message issue a `Succeed` command; other events are
ignored. -/
def policyHandleEvent (db : Db LoggingEvent Unit) (e : StoreEvent LoggingEvent)
    (now : Nat) : Db LoggingEvent Unit × Except String Unit :=
  let st := load db e.aggregate_id
  match e.payload with
  | .Received msg =>
    if strContains msg "fail_policy" then
      match managerHandleCommand db st .Fail now with
      | (db1, .error m) => (db1, .error m)
      | (db1, .ok _) => (db1, .error msg)
    else
      match managerHandleCommand db st .Succeed now with
      | (db1, .error m) => (db1, .error m)
      | (db1, .ok _) => (db1, .ok ())
  | _ => (db, .ok ())

/-- Modelled from the spec: the saga wiring (§4.4) — the manager handles the
command, and only after its commit is the policy invoked, post-commit, on
each newly persisted event in order; policy errors are reported, never
rolled back. -/
def sagaHandleCommand (db : Db LoggingEvent Unit) (st : AggregateState Nat)
    (cmd : LoggingCommand) (now : Nat) :
    Db LoggingEvent Unit × Except String (List (StoreEvent LoggingEvent)) × List String :=
  match managerHandleCommand db st cmd now with
  | (db1, .error e) => (db1, .error e, [])
  | (db1, .ok batch) =>
    let step := fun (acc : Db LoggingEvent Unit × List String) (e : StoreEvent LoggingEvent) =>
      match policyHandleEvent acc.1 e now with
      | (d, .error m) => (d, acc.2 ++ [m])
      | (d, .ok _) => (d, acc.2)
    let fin := batch.foldl step (db1, [])
    (fin.1, .ok batch, fin.2)

end SimpleSaga

/-! ## Concrete scenario data -/

namespace SimpleSideEffect

/-- The `simple_side_effect` store configuration: the transactional handler
and the post-commit handler of `examples/simple_side_effect/src/lib.rs`,
each registered once. -/
def sideCfg : StoreConfig LoggingEvent Unit :=
  ⟨[LoggingTransactionalEventHandler.handle], [LoggingEventHandler.handle], []⟩

/-- An empty store for the side-effect scenario. -/
def sideDb0 : Db LoggingEvent Unit :=
  ⟨[], (), 0⟩

/-- A fresh `AggregateState` for aggregate id 1 (`AggregateState::with_id`). -/
def sideSt0 : AggregateState Nat :=
  ⟨1, 0, 0⟩

/-- The store after one committed persist of a single `Logged "hi"` event. -/
def sideDb1 : Db LoggingEvent Unit :=
  (persist sideCfg sideDb0 sideSt0 [.Logged "hi"] 5).1

/-- A post-commit handler that always fails, as in the failing-handler
scenarios of spec §8. -/
def failingPostHandler : StoreEvent LoggingEvent → Except String Unit :=
  fun _ => .error "post failed"

/-- The side-effect configuration with a failing post-commit handler
registered. -/
def sideCfgPostFail : StoreConfig LoggingEvent Unit :=
  ⟨[LoggingTransactionalEventHandler.handle], [failingPostHandler], []⟩

end SimpleSideEffect

namespace SimpleSaga

/-- An empty store for the saga scenario. -/
def sagaDb0 : Db LoggingEvent Unit :=
  ⟨[], (), 0⟩

/-- `AggregateState::with_id` / `AggregateState::new`: a fresh state for an
aggregate id — sequence number 0, default inner state. -/
def freshState (aggId : Nat) : AggregateState Nat :=
  ⟨aggId, 0, 0⟩

end SimpleSaga

/-! ## Helper lemmas -/

/-- The uniqueness key relation used by `Db.Wf`. -/
def KeyDistinct (a b : StoreEvent Ev) : Prop :=
  ¬(a.aggregate_id = b.aggregate_id ∧ a.sequence_number = b.sequence_number)

theorem db_wf_iff (db : Db Ev Side) : db.Wf ↔ db.rows.Pairwise KeyDistinct := by
  rfl

theorem hasKey_append (l₁ l₂ : List (StoreEvent Ev)) (aggId seq : Nat) :
    hasKey (l₁ ++ l₂) aggId seq = (hasKey l₁ aggId seq || hasKey l₂ aggId seq) := by
  simp [hasKey, List.any_append]

theorem hasKey_eq_false_iff (rows : List (StoreEvent Ev)) (aggId seq : Nat) :
    hasKey rows aggId seq = false ↔
      ∀ r ∈ rows, ¬(r.aggregate_id = aggId ∧ r.sequence_number = seq) := by
  simp [hasKey, List.any_eq_false]

theorem insertAll_some_eq_append (batch : List (StoreEvent Ev)) :
    ∀ rows rows', insertAll rows batch = some rows' → rows' = rows ++ batch := by
  induction batch with
  | nil =>
    intro rows rows' h
    simp [insertAll] at h
    simp [h]
  | cons e rest ih =>
    intro rows rows' h
    simp only [insertAll] at h
    by_cases hk : hasKey rows e.aggregate_id e.sequence_number
    · simp [hk] at h
    · simp [hk] at h
      have := ih (rows ++ [e]) rows' h
      simpa using this

theorem insertAll_some_pairwise (batch : List (StoreEvent Ev)) :
    ∀ rows rows', rows.Pairwise KeyDistinct → insertAll rows batch = some rows' →
      rows'.Pairwise KeyDistinct := by
  induction batch with
  | nil =>
    intro rows rows' hp h
    simp [insertAll] at h
    simpa [← h] using hp
  | cons e rest ih =>
    intro rows rows' hp h
    simp only [insertAll] at h
    by_cases hk : hasKey rows e.aggregate_id e.sequence_number
    · simp [hk] at h
    · simp [hk] at h
      refine ih (rows ++ [e]) rows' ?_ h
      rw [List.pairwise_append]
      refine ⟨hp, List.pairwise_singleton _ _, ?_⟩
      intro a ha b hb
      simp only [List.mem_singleton] at hb
      have hfalse := (hasKey_eq_false_iff rows e.aggregate_id e.sequence_number).mp
        (Bool.eq_false_iff.mpr hk) a ha
      rw [hb]
      exact hfalse

theorem mkBatch_length (aggId now : Nat) (evs : List Ev) :
    ∀ baseSeq baseId, (mkBatch aggId baseSeq baseId now evs).length = evs.length := by
  induction evs with
  | nil => intro b c; rfl
  | cons e rest ih =>
    intro b c
    simp [mkBatch, ih]

theorem mkBatch_mem_aggId (aggId now : Nat) (evs : List Ev) :
    ∀ baseSeq baseId e, e ∈ mkBatch aggId baseSeq baseId now evs → e.aggregate_id = aggId := by
  induction evs with
  | nil => intro b c e h; simp [mkBatch] at h
  | cons ev rest ih =>
    intro b c e h
    simp only [mkBatch, List.mem_cons] at h
    rcases h with h | h
    · simp [h]
    · exact ih (b + 1) (c + 1) e h

theorem mkBatch_get (aggId now : Nat) (evs : List Ev) :
    ∀ baseSeq baseId i (hi : i < (mkBatch aggId baseSeq baseId now evs).length)
      (hi' : i < evs.length),
      (mkBatch aggId baseSeq baseId now evs).get ⟨i, hi⟩ =
        ⟨baseId + i, aggId, evs.get ⟨i, hi'⟩, now, baseSeq + 1 + i⟩ := by
  induction evs with
  | nil => intro b c i hi hi'; simp at hi'
  | cons ev rest ih =>
    intro b c i hi hi'
    cases i with
    | zero => simp [mkBatch]
    | succ j =>
      have hj : j < (mkBatch aggId (b + 1) (c + 1) now rest).length := by
        simpa [mkBatch] using hi
      have hj' : j < rest.length := by simpa using hi'
      have := ih (b + 1) (c + 1) j hj hj'
      simp only [mkBatch, List.get_cons_succ]
      rw [this]
      congr 1 <;> omega

theorem foldBatch_mkBatch_seq (apply : S → Ev → S) (aggId now : Nat) (evs : List Ev) :
    ∀ (st : AggregateState S) baseSeq baseId, st.sequence_number = baseSeq →
      (foldBatch apply st (mkBatch aggId baseSeq baseId now evs)).sequence_number =
        baseSeq + evs.length := by
  induction evs with
  | nil => intro st b c h; simpa [mkBatch, foldBatch] using h
  | cons ev rest ih =>
    intro st b c h
    simp only [mkBatch, foldBatch, List.foldl_cons]
    have := ih (applyStoreEvent apply st ⟨c, aggId, ev, now, b + 1⟩) (b + 1) (c + 1) rfl
    simp only [foldBatch] at this
    rw [this]
    simp only [List.length_cons]
    omega

theorem insertAll_mkBatch_none_iff (aggId now : Nat) (evs : List Ev) :
    ∀ (rows : List (StoreEvent Ev)) baseSeq baseId,
      insertAll rows (mkBatch aggId baseSeq baseId now evs) = none ↔
        ∃ i < evs.length, hasKey rows aggId (baseSeq + 1 + i) = true := by
  induction evs with
  | nil =>
    intro rows b c
    simp [mkBatch, insertAll]
  | cons ev rest ih =>
    intro rows b c
    simp only [mkBatch, insertAll]
    by_cases hk : hasKey rows aggId (b + 1) = true
    · rw [if_pos hk]
      constructor
      · intro _
        exact ⟨0, by simp, by simpa using hk⟩
      · intro _
        rfl
    · rw [if_neg hk]
      rw [ih _ (b + 1) (c + 1)]
      constructor
      · rintro ⟨i, hi, hkey⟩
        rw [hasKey_append] at hkey
        have hsingle : hasKey [(⟨c, aggId, ev, now, b + 1⟩ : StoreEvent Ev)] aggId (b + 1 + 1 + i) = false := by
          simp [hasKey]
          omega
        rw [hsingle, Bool.or_false] at hkey
        exact ⟨i + 1, by simp only [List.length_cons]; omega,
          by convert hkey using 2; omega⟩
      · rintro ⟨i, hi, hkey⟩
        cases i with
        | zero =>
          exact absurd (by simpa using hkey) (by simpa using hk)
        | succ j =>
          refine ⟨j, by simp only [List.length_cons] at hi; omega, ?_⟩
          rw [hasKey_append]
          have : hasKey rows aggId (b + 1 + 1 + j) = true := by
            convert hkey using 2
            omega
          simp [this]

theorem mem_by_aggregate_id (db : Db Ev Side) (aggId : Nat) (e : StoreEvent Ev)
    (hmem : e ∈ db.rows) (hagg : e.aggregate_id = aggId) :
    e ∈ by_aggregate_id db aggId := by
  unfold by_aggregate_id
  rw [List.mem_insertionSort]
  rw [List.mem_filter]
  exact ⟨hmem, by simp [hagg]⟩

theorem persist_preserves_wf (cfg : StoreConfig Ev Side) (db : Db Ev Side)
    (st : AggregateState S) (evs : List Ev) (now : Nat) (hwf : db.Wf) :
    (persist cfg db st evs now).1.Wf := by
  unfold persist
  cases hins : insertAll db.rows (mkBatch st.id st.sequence_number db.nextId now evs) with
  | none => simp only [hins]; exact hwf
  | some rows' =>
    cases htx : runTxAll cfg.txHandlers (mkBatch st.id st.sequence_number db.nextId now evs) db.side with
    | error msg => simp only [hins, htx]; exact hwf
    | ok side' =>
      simp only [hins, htx]
      exact insertAll_some_pairwise _ db.rows rows' hwf hins

theorem delete_preserves_wf (db : Db Ev Side) (aggId : Nat) (hwf : db.Wf) :
    (EventStore.delete db aggId).Wf := by
  unfold EventStore.delete Db.Wf
  exact List.Pairwise.sublist (List.filter_sublist _) hwf

theorem reachable_wf (cfg : StoreConfig Ev Side) (db : Db Ev Side)
    (h : Reachable cfg db) : db.Wf := by
  induction h with
  | empty side => exact List.Pairwise.nil
  | persistStep st evs now _ ih => exact persist_preserves_wf _ _ _ _ _ ih
  | deleteStep aggId _ ih => exact delete_preserves_wf _ _ ih

theorem persist_handlerRejected_unchanged (cfg : StoreConfig Ev Side) (db : Db Ev Side)
    (st : AggregateState S) (evs : List Ev) (now : Nat) (msg : String)
    (h : (persist cfg db st evs now).2 = .handlerRejected msg) :
    (persist cfg db st evs now).1 = db := by
  unfold persist at h ⊢
  cases hins : insertAll db.rows (mkBatch st.id st.sequence_number db.nextId now evs) with
  | none => simp only [hins]
  | some rows' =>
    cases htx : runTxAll cfg.txHandlers (mkBatch st.id st.sequence_number db.nextId now evs) db.side with
    | error m => simp only [hins, htx]
    | ok side' => simp [hins, htx] at h

theorem persist_conflict_unchanged (cfg : StoreConfig Ev Side) (db : Db Ev Side)
    (st : AggregateState S) (evs : List Ev) (now : Nat)
    (h : (persist cfg db st evs now).2 = .conflict) :
    (persist cfg db st evs now).1 = db := by
  unfold persist at h ⊢
  cases hins : insertAll db.rows (mkBatch st.id st.sequence_number db.nextId now evs) with
  | none => simp only [hins]
  | some rows' =>
    cases htx : runTxAll cfg.txHandlers (mkBatch st.id st.sequence_number db.nextId now evs) db.side with
    | error m => simp [hins, htx] at h
    | ok side' => simp [hins, htx] at h

theorem persist_conflict_iff (cfg : StoreConfig Ev Side) (db : Db Ev Side)
    (st : AggregateState S) (evs : List Ev) (now : Nat) :
    (persist cfg db st evs now).2 = .conflict ↔
      ∃ i < evs.length, hasKey db.rows st.id (st.sequence_number + 1 + i) = true := by
  unfold persist
  rw [← insertAll_mkBatch_none_iff st.id now evs db.rows st.sequence_number db.nextId]
  cases hins : insertAll db.rows (mkBatch st.id st.sequence_number db.nextId now evs) with
  | none => simp only [hins]
  | some rows' =>
    cases htx : runTxAll cfg.txHandlers (mkBatch st.id st.sequence_number db.nextId now evs) db.side with
    | error m => simp [hins, htx]
    | ok side' => simp [hins, htx]

theorem persist_committed_spec (cfg : StoreConfig Ev Side) (db : Db Ev Side)
    (st : AggregateState S) (evs : List Ev) (now : Nat) (batch : List (StoreEvent Ev))
    (errs : List String)
    (h : (persist cfg db st evs now).2 = .committed batch errs) :
    batch = mkBatch st.id st.sequence_number db.nextId now evs ∧
      (persist cfg db st evs now).1.rows = db.rows ++ batch ∧
      (persist cfg db st evs now).1.nextId = db.nextId + evs.length := by
  unfold persist at h ⊢
  cases hins : insertAll db.rows (mkBatch st.id st.sequence_number db.nextId now evs) with
  | none => simp [hins] at h
  | some rows' =>
    cases htx : runTxAll cfg.txHandlers (mkBatch st.id st.sequence_number db.nextId now evs) db.side with
    | error m => simp [hins, htx] at h
    | ok side' =>
      simp only [hins, htx, PersistOutcome.committed.injEq] at h
      simp only [hins, htx]
      refine ⟨h.1.symm, ?_, ?_⟩
      · rw [← h.1]
        exact insertAll_some_eq_append _ db.rows rows' hins
      · trivial

theorem foldBatch_flatten (apply : S → Ev → S) (batches : List (List (StoreEvent Ev))) :
    ∀ st, batches.foldl (foldBatch apply) st = foldBatch apply st batches.flatten := by
  induction batches with
  | nil => intro st; rfl
  | cons b rest ih =>
    intro st
    simp only [List.foldl_cons, List.flatten_cons]
    rw [ih]
    unfold foldBatch
    rw [List.foldl_append]

theorem foldBatch_count_saga (l : List (StoreEvent SimpleSaga.LoggingEvent)) :
    ∀ st : AggregateState Nat,
      (foldBatch SimpleSaga.apply_event st l).inner = st.inner + l.length := by
  induction l with
  | nil => intro st; simp [foldBatch]
  | cons e rest ih =>
    intro st
    simp only [foldBatch, List.foldl_cons] at ih ⊢
    rw [ih (applyStoreEvent SimpleSaga.apply_event st e)]
    simp [applyStoreEvent, SimpleSaga.apply_event, List.length_cons]
    omega

/-! ## Claim theorems -/

/-- C1: if any registered transactional event handler returns an error during
`persist`, the whole storage transaction is aborted before commit — the store
is exactly as it was, and a subsequent `by_aggregate_id` returns the log
exactly as before the call, for every aggregate id. -/
theorem tx_handler_failure_rolls_back (cfg : StoreConfig Ev Side) (db : Db Ev Side)
    (st : AggregateState S) (evs : List Ev) (now : Nat) (msg : String)
    (h : (persist cfg db st evs now).2 = .handlerRejected msg) :
    (persist cfg db st evs now).1 = db ∧
      ∀ aggId, by_aggregate_id (persist cfg db st evs now).1 aggId =
        by_aggregate_id db aggId := by
  have h1 := persist_handlerRejected_unchanged cfg db st evs now msg h
  exact ⟨h1, fun aggId => by rw [h1]⟩

/-- Witness for C1: the `simple_side_effect` transactional handler vetoes a
message containing `fail_projection`, and the store is left unchanged. -/
theorem tx_handler_failure_rolls_back_witness :
    (persist SimpleSideEffect.sideCfg SimpleSideEffect.sideDb0 SimpleSideEffect.sideSt0
        [SimpleSideEffect.LoggingEvent.Logged "please fail_projection"] 5).2 =
      .handlerRejected "please fail_projection" ∧
    ((persist SimpleSideEffect.sideCfg SimpleSideEffect.sideDb0 SimpleSideEffect.sideSt0
        [SimpleSideEffect.LoggingEvent.Logged "please fail_projection"] 5).1 =
      SimpleSideEffect.sideDb0 ∧
      ∀ aggId,
        by_aggregate_id (persist SimpleSideEffect.sideCfg SimpleSideEffect.sideDb0
            SimpleSideEffect.sideSt0
            [SimpleSideEffect.LoggingEvent.Logged "please fail_projection"] 5).1 aggId =
          by_aggregate_id SimpleSideEffect.sideDb0 aggId) :=
  ⟨by decide,
    tx_handler_failure_rolls_back SimpleSideEffect.sideCfg SimpleSideEffect.sideDb0
      SimpleSideEffect.sideSt0 [SimpleSideEffect.LoggingEvent.Logged "please fail_projection"]
      5 "please fail_projection" (by decide)⟩

/-- C2: for every persist call that reaches commit, failures of post-commit
handlers or event-bus publishers are only reported in the outcome and never
undo the committed write: the committed rows are the old rows extended by the
batch, and `by_aggregate_id` afterwards contains every newly persisted
event. -/
theorem post_commit_failure_never_undoes_commit (cfg : StoreConfig Ev Side)
    (db : Db Ev Side) (st : AggregateState S) (evs : List Ev) (now : Nat)
    (batch : List (StoreEvent Ev)) (postErrors : List String)
    (h : (persist cfg db st evs now).2 = .committed batch postErrors) :
    (persist cfg db st evs now).1.rows = db.rows ++ batch ∧
      ∀ e ∈ batch, e ∈ by_aggregate_id (persist cfg db st evs now).1 st.id := by
  obtain ⟨hb, hrows, -⟩ := persist_committed_spec cfg db st evs now batch postErrors h
  refine ⟨hrows, fun e he => ?_⟩
  apply mem_by_aggregate_id
  · rw [hrows]
    exact List.mem_append_right _ he
  · subst hb
    exact mkBatch_mem_aggId st.id now evs st.sequence_number db.nextId e he

/-- Witness for C2: with an always-failing post-commit handler registered,
persisting one event commits, the failure is reported in the outcome, and the
event is in the log afterwards. -/
theorem post_commit_failure_never_undoes_commit_witness :
    (persist SimpleSideEffect.sideCfgPostFail SimpleSideEffect.sideDb0
        SimpleSideEffect.sideSt0 [SimpleSideEffect.LoggingEvent.Logged "hello"] 5).2 =
      .committed [⟨0, 1, .Logged "hello", 5, 1⟩] ["post failed"] ∧
    ((persist SimpleSideEffect.sideCfgPostFail SimpleSideEffect.sideDb0
        SimpleSideEffect.sideSt0 [SimpleSideEffect.LoggingEvent.Logged "hello"] 5).1.rows =
      SimpleSideEffect.sideDb0.rows ++ [⟨0, 1, .Logged "hello", 5, 1⟩] ∧
      ∀ e ∈ ([⟨0, 1, .Logged "hello", 5, 1⟩] : List (StoreEvent SimpleSideEffect.LoggingEvent)),
        e ∈ by_aggregate_id (persist SimpleSideEffect.sideCfgPostFail SimpleSideEffect.sideDb0
            SimpleSideEffect.sideSt0 [SimpleSideEffect.LoggingEvent.Logged "hello"] 5).1
          SimpleSideEffect.sideSt0.id) :=
  ⟨by decide,
    post_commit_failure_never_undoes_commit SimpleSideEffect.sideCfgPostFail
      SimpleSideEffect.sideDb0 SimpleSideEffect.sideSt0
      [SimpleSideEffect.LoggingEvent.Logged "hello"] 5
      [⟨0, 1, .Logged "hello", 5, 1⟩] ["post failed"] (by decide)⟩

/-- C3: in every reachable store state, no two committed events share an
`(aggregate_id, sequence_number)` pair; `persist` returns `conflict` exactly
when one of its inserts would violate the uniqueness constraint, and in that
case the transaction is aborted with the store unchanged — the call hands the
error back instead of retrying. -/
theorem uniqueness_invariant_and_conflict (cfg : StoreConfig Ev Side)
    (db : Db Ev Side) (st : AggregateState S) (evs : List Ev) (now : Nat)
    (hre : Reachable cfg db) :
    db.Wf ∧
      ((persist cfg db st evs now).2 = .conflict ↔
        ∃ i < evs.length, hasKey db.rows st.id (st.sequence_number + 1 + i) = true) ∧
      ((persist cfg db st evs now).2 = .conflict → (persist cfg db st evs now).1 = db) :=
  ⟨reachable_wf cfg db hre, persist_conflict_iff cfg db st evs now,
    fun h => persist_conflict_unchanged cfg db st evs now h⟩

/-- Witness for C3: after one committed event at sequence 1, a second writer
still holding sequence position 0 is detected by the constraint. -/
theorem uniqueness_invariant_and_conflict_witness :
    SimpleSideEffect.sideDb1.Wf ∧
      ((persist SimpleSideEffect.sideCfg SimpleSideEffect.sideDb1 SimpleSideEffect.sideSt0
          [SimpleSideEffect.LoggingEvent.Logged "again"] 6).2 = .conflict ↔
        ∃ i < [SimpleSideEffect.LoggingEvent.Logged "again"].length,
          hasKey SimpleSideEffect.sideDb1.rows SimpleSideEffect.sideSt0.id
            (SimpleSideEffect.sideSt0.sequence_number + 1 + i) = true) ∧
      ((persist SimpleSideEffect.sideCfg SimpleSideEffect.sideDb1 SimpleSideEffect.sideSt0
          [SimpleSideEffect.LoggingEvent.Logged "again"] 6).2 = .conflict →
        (persist SimpleSideEffect.sideCfg SimpleSideEffect.sideDb1 SimpleSideEffect.sideSt0
          [SimpleSideEffect.LoggingEvent.Logged "again"] 6).1 = SimpleSideEffect.sideDb1) :=
  uniqueness_invariant_and_conflict SimpleSideEffect.sideCfg SimpleSideEffect.sideDb1
    SimpleSideEffect.sideSt0 [SimpleSideEffect.LoggingEvent.Logged "again"] 6
    (Reachable.persistStep SimpleSideEffect.sideSt0
      [SimpleSideEffect.LoggingEvent.Logged "hi"] 5 (Reachable.empty ()))

/-- C4: a successful persist of `n` events assigns the `i`-th event the
sequence number `state.sequence_number + 1 + i` computed from the state at
entry, a freshly generated id (the `i`-th generator position after the
store's current one) and the current timestamp, and keeps the payloads in
order; folding the returned batch into the state leaves its next sequence
number at the entry sequence number plus `n` plus one. -/
theorem persist_assigns_sequence_numbers (cfg : StoreConfig Ev Side) (db : Db Ev Side)
    (apply : S → Ev → S) (st : AggregateState S) (evs : List Ev) (now : Nat)
    (batch : List (StoreEvent Ev)) (postErrors : List String)
    (h : (persist cfg db st evs now).2 = .committed batch postErrors) :
    batch.length = evs.length ∧
      (∀ i (hi : i < batch.length) (hi2 : i < evs.length),
        (batch.get ⟨i, hi⟩).sequence_number = st.sequence_number + 1 + i ∧
        (batch.get ⟨i, hi⟩).id = db.nextId + i ∧
        (batch.get ⟨i, hi⟩).occurred_at = now ∧
        (batch.get ⟨i, hi⟩).payload = evs.get ⟨i, hi2⟩) ∧
      (foldBatch apply st batch).next_sequence_number =
        st.sequence_number + evs.length + 1 := by
  obtain ⟨hb, -, -⟩ := persist_committed_spec cfg db st evs now batch postErrors h
  subst hb
  refine ⟨mkBatch_length st.id now evs st.sequence_number db.nextId, ?_, ?_⟩
  · intro i hi hi2
    rw [mkBatch_get st.id now evs st.sequence_number db.nextId i hi hi2]
    exact ⟨rfl, rfl, rfl, rfl⟩
  · have hseq := foldBatch_mkBatch_seq apply st.id now evs st st.sequence_number db.nextId rfl
    unfold AggregateState.next_sequence_number
    rw [hseq]

/-- Witness for C4: persisting two events over an empty store with entry
sequence number 0 yields sequence numbers 1 and 2 and the advanced state. -/
theorem persist_assigns_sequence_numbers_witness :
    (persist SimpleSideEffect.sideCfg SimpleSideEffect.sideDb0 SimpleSideEffect.sideSt0
        [SimpleSideEffect.LoggingEvent.Logged "a", SimpleSideEffect.LoggingEvent.Logged "b"]
        5).2 =
      .committed [⟨0, 1, .Logged "a", 5, 1⟩, ⟨1, 1, .Logged "b", 5, 2⟩] [] ∧
    (([⟨0, 1, .Logged "a", 5, 1⟩, ⟨1, 1, .Logged "b", 5, 2⟩] :
        List (StoreEvent SimpleSideEffect.LoggingEvent)).length =
      [SimpleSideEffect.LoggingEvent.Logged "a",
        SimpleSideEffect.LoggingEvent.Logged "b"].length ∧
      (∀ i (hi : i < ([⟨0, 1, .Logged "a", 5, 1⟩, ⟨1, 1, .Logged "b", 5, 2⟩] :
            List (StoreEvent SimpleSideEffect.LoggingEvent)).length)
        (hi2 : i < [SimpleSideEffect.LoggingEvent.Logged "a",
            SimpleSideEffect.LoggingEvent.Logged "b"].length),
        (([⟨0, 1, .Logged "a", 5, 1⟩, ⟨1, 1, .Logged "b", 5, 2⟩] :
            List (StoreEvent SimpleSideEffect.LoggingEvent)).get ⟨i, hi⟩).sequence_number =
          SimpleSideEffect.sideSt0.sequence_number + 1 + i ∧
        (([⟨0, 1, .Logged "a", 5, 1⟩, ⟨1, 1, .Logged "b", 5, 2⟩] :
            List (StoreEvent SimpleSideEffect.LoggingEvent)).get ⟨i, hi⟩).id =
          SimpleSideEffect.sideDb0.nextId + i ∧
        (([⟨0, 1, .Logged "a", 5, 1⟩, ⟨1, 1, .Logged "b", 5, 2⟩] :
            List (StoreEvent SimpleSideEffect.LoggingEvent)).get ⟨i, hi⟩).occurred_at = 5 ∧
        (([⟨0, 1, .Logged "a", 5, 1⟩, ⟨1, 1, .Logged "b", 5, 2⟩] :
            List (StoreEvent SimpleSideEffect.LoggingEvent)).get ⟨i, hi⟩).payload =
          [SimpleSideEffect.LoggingEvent.Logged "a",
            SimpleSideEffect.LoggingEvent.Logged "b"].get ⟨i, hi2⟩) ∧
      (foldBatch SimpleSideEffect.apply_event SimpleSideEffect.sideSt0
          [⟨0, 1, .Logged "a", 5, 1⟩, ⟨1, 1, .Logged "b", 5, 2⟩]).next_sequence_number =
        SimpleSideEffect.sideSt0.sequence_number +
          [SimpleSideEffect.LoggingEvent.Logged "a",
            SimpleSideEffect.LoggingEvent.Logged "b"].length + 1) :=
  ⟨by decide,
    persist_assigns_sequence_numbers SimpleSideEffect.sideCfg SimpleSideEffect.sideDb0
      SimpleSideEffect.apply_event SimpleSideEffect.sideSt0
      [SimpleSideEffect.LoggingEvent.Logged "a", SimpleSideEffect.LoggingEvent.Logged "b"] 5
      [⟨0, 1, .Logged "a", 5, 1⟩, ⟨1, 1, .Logged "b", 5, 2⟩] [] (by decide)⟩

/-- C7: `delete` followed by `by_aggregate_id` on the same id returns the
empty sequence (a value, not an error), whatever was previously persisted
for that id. -/
theorem delete_then_by_aggregate_id_empty (db : Db Ev Side) (aggId : Nat) :
    by_aggregate_id (EventStore.delete db aggId) aggId = [] := by
  unfold by_aggregate_id EventStore.delete
  have h : ((db.rows.filter fun r => r.aggregate_id != aggId).filter
      fun r => r.aggregate_id == aggId) = [] := by
    simp [List.filter_filter]
  simp only [h]
  rfl

/-- C5 counterexample: it is not the case that all three registries of the
built store are hot-swappable — `try_build` places only `event_handlers`
behind an `ArcSwap` (`builder.rs` line 109); `transactional_event_handlers`
and `event_buses` are plain fields shared immutably behind the store's
`Arc` (lines 110–111). -/
theorem not_all_registries_hot_swappable :
    ¬(innerPgStoreLayout.event_handlers.hotSwappable = true ∧
      innerPgStoreLayout.transactional_event_handlers.hotSwappable = true ∧
      innerPgStoreLayout.event_buses.hotSwappable = true) := by
  decide

/-- C5 amended: each registry is fixed from the perspective of a single
in-flight persist call (the call reads an immutable snapshot), and only the
post-commit event-handler registry can be hot-swapped between calls —
with replace-the-whole-list `ArcSwap` semantics, never incremental in-place
mutation; the transactional-handler and event-bus registries are fixed at
store construction. -/
theorem registry_swap_semantics :
    innerPgStoreLayout.event_handlers.hotSwappable = true ∧
      innerPgStoreLayout.transactional_event_handlers.hotSwappable = false ∧
      innerPgStoreLayout.event_buses.hotSwappable = false ∧
      ∀ (α : Type) (a : ArcSwap α) (x : α), (a.store x).current = x :=
  ⟨rfl, rfl, rfl, fun _ _ _ => rfl⟩

/-- C6: when the saga policy issues a follow-up command through the shared
store in reaction to an event, the triggering `Received` event is already
durable (readable via `by_aggregate_id`) in the store handed to the policy,
before the follow-up command executes; after the full call the log holds the
trigger at sequence 1 and the follow-up (`Succeeded`, or `Failed` when the
policy fails) at sequence 2, the trigger never after its follow-up. -/
theorem saga_trigger_durable_before_followup (msg : String) :
    by_aggregate_id
        (SimpleSaga.managerHandleCommand SimpleSaga.sagaDb0 (SimpleSaga.freshState 1)
          (.TryLog msg) 10).1 1 =
      [⟨0, 1, .Received msg, 10, 1⟩] ∧
    by_aggregate_id
        (SimpleSaga.sagaHandleCommand SimpleSaga.sagaDb0 (SimpleSaga.freshState 1)
          (.TryLog msg) 10).1 1 =
      [⟨0, 1, .Received msg, 10, 1⟩,
       ⟨1, 1, if strContains msg "fail_policy" then .Failed else .Succeeded, 10, 2⟩] ∧
    (⟨0, 1, SimpleSaga.LoggingEvent.Received msg, 10, 1⟩ :
        StoreEvent SimpleSaga.LoggingEvent).sequence_number <
      (⟨1, 1, if strContains msg "fail_policy" then .Failed else .Succeeded, 10, 2⟩ :
        StoreEvent SimpleSaga.LoggingEvent).sequence_number := by
  refine ⟨?_, ?_, ?_⟩ <;>
  · cases h : strContains msg "fail_policy" <;>
      simp [SimpleSaga.sagaHandleCommand, SimpleSaga.managerHandleCommand,
        SimpleSaga.handle_command, persist, mkBatch, insertAll, hasKey, runTxAll,
        runTxHandlers, SimpleSaga.sagaCfg, runPostAll, runBuses,
        SimpleSaga.policyHandleEvent, SimpleSaga.load, by_aggregate_id, foldBatch,
        applyStoreEvent, SimpleSaga.apply_event, SimpleSaga.sagaDb0, SimpleSaga.freshState,
        h, List.insertionSort, List.orderedInsert, runPostHandlers]

/-- C8: `try_build` runs the migration step exactly when the builder's
`run_migrations` flag is set: a fresh builder defaults the flag to `true`,
`without_running_migrations` clears it, `try_build` fails exactly when the
flag is set and the migrations fail, and with migrations skipped it always
succeeds. -/
theorem try_build_runs_migrations_iff_flag (P H T B : Type) (p : P) (name : String)
    (b : PgStoreBuilder P H T B) (mig : Except String Unit) :
    (PgStoreBuilder.new p name : PgStoreBuilder P H T B).run_migrations = true ∧
      b.without_running_migrations.run_migrations = false ∧
      ((b.try_build mig).isOk = false ↔ b.run_migrations = true ∧ mig.isOk = false) ∧
      (b.without_running_migrations.try_build mig).isOk = true := by
  refine ⟨rfl, rfl, ?_, ?_⟩
  · cases hb : b.run_migrations <;> cases mig <;>
      simp [PgStoreBuilder.try_build, hb, Except.isOk, Except.toBool]
  · cases mig <;>
      simp [PgStoreBuilder.try_build, PgStoreBuilder.without_running_migrations,
        Except.isOk, Except.toBool]

/-- C9: folding batches as they were persisted equals folding the full
ordered history at once (replay determinism), and for the `LoggingAggregate`
of both saga and side-effect examples, `apply_event` maps state `s` and any
event to `s + 1`, so folding any `k` events from inner state 0 yields
`k`. -/
theorem replay_determinism (S Ev : Type) (apply : S → Ev → S) (st : AggregateState S)
    (batches : List (List (StoreEvent Ev))) (aggId seq s : Nat)
    (e : SimpleSaga.LoggingEvent) (e2 : SimpleSideEffect.LoggingEvent)
    (l : List (StoreEvent SimpleSaga.LoggingEvent)) :
    batches.foldl (foldBatch apply) st = foldBatch apply st batches.flatten ∧
      SimpleSaga.apply_event s e = s + 1 ∧
      SimpleSideEffect.apply_event s e2 = s + 1 ∧
      (foldBatch SimpleSaga.apply_event ⟨aggId, seq, 0⟩ l).inner = l.length := by
  refine ⟨foldBatch_flatten apply batches st, rfl, rfl, ?_⟩
  rw [foldBatch_count_saga l ⟨aggId, seq, 0⟩]
  exact Nat.zero_add l.length

/-- C10: each `PgStoreBuilder` configuration method changes only its own
field, leaving the pool, the statements, the `run_migrations` flag and the
other two registries unchanged; each `add_*` method appends exactly one
element at the end of its registry. -/
theorem builder_methods_frame (P H T B : Type) (b : PgStoreBuilder P H T B)
    (hs : List H) (h : H) (ts : List T) (t : T) (bs : List B) (bus : B) :
    ((b.with_event_handlers hs).pool = b.pool ∧
      (b.with_event_handlers hs).statements = b.statements ∧
      (b.with_event_handlers hs).transactional_event_handlers =
        b.transactional_event_handlers ∧
      (b.with_event_handlers hs).event_buses = b.event_buses ∧
      (b.with_event_handlers hs).run_migrations = b.run_migrations ∧
      (b.with_event_handlers hs).event_handlers = hs) ∧
    ((b.add_event_handler h).pool = b.pool ∧
      (b.add_event_handler h).statements = b.statements ∧
      (b.add_event_handler h).transactional_event_handlers =
        b.transactional_event_handlers ∧
      (b.add_event_handler h).event_buses = b.event_buses ∧
      (b.add_event_handler h).run_migrations = b.run_migrations ∧
      (b.add_event_handler h).event_handlers = b.event_handlers ++ [h]) ∧
    ((b.with_transactional_event_handlers ts).pool = b.pool ∧
      (b.with_transactional_event_handlers ts).statements = b.statements ∧
      (b.with_transactional_event_handlers ts).event_handlers = b.event_handlers ∧
      (b.with_transactional_event_handlers ts).event_buses = b.event_buses ∧
      (b.with_transactional_event_handlers ts).run_migrations = b.run_migrations ∧
      (b.with_transactional_event_handlers ts).transactional_event_handlers = ts) ∧
    ((b.add_transactional_event_handler t).pool = b.pool ∧
      (b.add_transactional_event_handler t).statements = b.statements ∧
      (b.add_transactional_event_handler t).event_handlers = b.event_handlers ∧
      (b.add_transactional_event_handler t).event_buses = b.event_buses ∧
      (b.add_transactional_event_handler t).run_migrations = b.run_migrations ∧
      (b.add_transactional_event_handler t).transactional_event_handlers =
        b.transactional_event_handlers ++ [t]) ∧
    ((b.with_event_buses bs).pool = b.pool ∧
      (b.with_event_buses bs).statements = b.statements ∧
      (b.with_event_buses bs).event_handlers = b.event_handlers ∧
      (b.with_event_buses bs).transactional_event_handlers =
        b.transactional_event_handlers ∧
      (b.with_event_buses bs).run_migrations = b.run_migrations ∧
      (b.with_event_buses bs).event_buses = bs) ∧
    ((b.add_event_bus bus).pool = b.pool ∧
      (b.add_event_bus bus).statements = b.statements ∧
      (b.add_event_bus bus).event_handlers = b.event_handlers ∧
      (b.add_event_bus bus).transactional_event_handlers =
        b.transactional_event_handlers ∧
      (b.add_event_bus bus).run_migrations = b.run_migrations ∧
      (b.add_event_bus bus).event_buses = b.event_buses ++ [bus]) ∧
    ((b.without_running_migrations).pool = b.pool ∧
      (b.without_running_migrations).statements = b.statements ∧
      (b.without_running_migrations).event_handlers = b.event_handlers ∧
      (b.without_running_migrations).transactional_event_handlers =
        b.transactional_event_handlers ∧
      (b.without_running_migrations).event_buses = b.event_buses ∧
      (b.without_running_migrations).run_migrations = false) :=
  ⟨⟨rfl, rfl, rfl, rfl, rfl, rfl⟩, ⟨rfl, rfl, rfl, rfl, rfl, rfl⟩,
    ⟨rfl, rfl, rfl, rfl, rfl, rfl⟩, ⟨rfl, rfl, rfl, rfl, rfl, rfl⟩,
    ⟨rfl, rfl, rfl, rfl, rfl, rfl⟩, ⟨rfl, rfl, rfl, rfl, rfl, rfl⟩,
    ⟨rfl, rfl, rfl, rfl, rfl, rfl⟩⟩
